import Mathlib

/-!
Verification of the shape calculator and network builder of the Wave-U-Net
audio separator (`Models/UnetAudioSeparator.py`).

The embedding is shallow:

* `ModelConfig` mirrors the fields of `model_config` read by
  `UnetAudioSeparator.__init__`.
* `get_padding` mirrors `UnetAudioSeparator.get_padding`.  The Python code
  performs the backward pass in IEEE double precision; every value that
  arises there is a dyadic rational of small magnitude (integers divided by
  `2^num_layers`), which doubles represent exactly, so the arithmetic is
  embedded faithfully over `ℚ`.  `np.ceil` becomes `Int.ceil`, and the
  `assert(x >= 2)` failure is an `Option.none` result.
* `get_output` mirrors the tensor-shape behaviour of
  `UnetAudioSeparator.get_output`: lengths of valid/same convolutions,
  decimation by slicing, bilinear/learned upsampling, the skip-connection
  assertion, centre-crop-and-concatenate, and the output dispatch.
  Length semantics of the external collaborators (`tf.nn.conv1d` with SAME
  padding, `Utils.crop_and_concat`, the learned interpolation layer) follow
  the documented behaviour quoted in the source comments and the spec.
-/

namespace UnetSep

/-- Configuration record: the fields of `model_config` that
`UnetAudioSeparator.__init__` stores on the instance. -/
structure ModelConfig where
  num_layers : ℕ
  num_initial_filters : ℤ
  filter_size : ℤ
  merge_filter_size : ℤ
  input_filter_size : ℤ
  output_filter_size : ℤ
  upsampling : String
  output_type : String
  context : Bool
  mono_downmix : Bool
  output_activation : String
  mhe : Bool
  deriving Repr, DecidableEq

/-- Channel count: `self.num_channels = 1 if model_config["mono_downmix"] else 2`. -/
def num_channels (cfg : ModelConfig) : ℤ :=
  if cfg.mono_downmix then 1 else 2

/-- Padding mode: `self.padding = "VALID" if model_config["context"] else "SAME"`. -/
def paddingOf (context : Bool) : String :=
  if context then "VALID" else "SAME"

/-- A `[batch_size, time_steps, channels]` shape triple. -/
structure Shape where
  batch : ℤ
  time : ℤ
  channels : ℤ
  deriving Repr, DecidableEq

/-- One backward pass through an upsampling block in `get_padding`:
`rem = rem + self.merge_filter_size - 1` followed by `rem = (rem + 1.) / 2.`. -/
def remStep (m : ℤ) (r : ℚ) : ℚ :=
  ((r + (m : ℚ) - 1) + 1) / 2

/-- The `for i in range(self.num_layers)` backward loop of `get_padding`,
over exact rational arithmetic. -/
def backLoop (m : ℤ) : ℕ → ℚ → ℚ
  | 0, r => r
  | n + 1, r => backLoop m n (remStep m r)

/-- The bottleneck length `x = np.ceil(rem)` computed by `get_padding` from a
desired output time length `T`: `rem = float(T); rem = rem -
self.output_filter_size + 1`, then the backward loop, then one ceiling. -/
def bottleneck (cfg : ModelConfig) (T : ℤ) : ℤ :=
  ⌈backLoop cfg.merge_filter_size cfg.num_layers
      ((T : ℚ) - (cfg.output_filter_size : ℚ) + 1)⌉

/-- One forward pass through an upsampling block in `get_padding`:
`output_shape = 2*output_shape - 1` then
`output_shape = output_shape - self.merge_filter_size + 1`. -/
def outStep (m : ℤ) (o : ℤ) : ℤ :=
  (2 * o - 1) - m + 1

/-- The forward output-shape loop of `get_padding`. -/
def outLoop (m : ℤ) : ℕ → ℤ → ℤ
  | 0, o => o
  | n + 1, o => outLoop m n (outStep m o)

/-- The forward input-shape loop of `get_padding`: each iteration performs
`input_shape = 2*input_shape - 1` and then adds `self.filter_size - 1`,
except the last iteration (`i = num_layers - 1`), which adds
`self.input_filter_size - 1`. -/
def inLoop (f fin : ℤ) : ℕ → ℤ → ℤ
  | 0, v => v
  | 1, v => (2 * v - 1) + fin - 1
  | n + 2, v => inLoop f fin (n + 1) ((2 * v - 1) + f - 1)

/-- The function `UnetAudioSeparator.get_padding`.  Returns `(input_shape, output_shape)`;
the failing `assert(x >= 2)` is modelled as `none`. -/
def get_padding (cfg : ModelConfig) (shape : Shape) : Option (Shape × Shape) :=
  if cfg.context then
    let x : ℤ := bottleneck cfg shape.time
    if 2 ≤ x then
      let output_time : ℤ :=
        outLoop cfg.merge_filter_size cfg.num_layers x
          - cfg.output_filter_size + 1
      let input_time : ℤ :=
        inLoop cfg.filter_size cfg.input_filter_size cfg.num_layers
          (x + cfg.filter_size - 1)
      some (⟨shape.batch, input_time, num_channels cfg⟩,
            ⟨shape.batch, output_time, num_channels cfg⟩)
    else none
  else
    some (⟨shape.batch, shape.time, num_channels cfg⟩,
          ⟨shape.batch, shape.time, num_channels cfg⟩)

/-! Integer form of the backward pass.

The backward pass of `get_padding` runs over exact dyadic rationals and takes
a single ceiling at the end.  For concrete evaluation, and to compare with
the per-stage-ceiling description in the spec, we relate it to a loop over
`ℤ` using Euclidean division. -/

/-- Integer form of one backward step: `⌈(z + m) / 2⌉` computed with
Euclidean division. -/
def intRemStep (m z : ℤ) : ℤ :=
  (z + m + 1) / 2

/-- Integer form of the backward loop. -/
def intBackLoop (m : ℤ) : ℕ → ℤ → ℤ
  | 0, z => z
  | n + 1, z => intBackLoop m n (intRemStep m z)

/-! The backward algorithm as the spec words it (for C1). -/

/-- One backward stage following the spec text: `rem = rem + mergeFilterSize
- 1` followed by `rem = ceil((rem + 1) / 2)`, the ceiling applied at this
stage. -/
def specRemStep (m z : ℤ) : ℤ :=
  ⌈(((z + m - 1 : ℤ) : ℚ) + 1) / 2⌉

/-- The backward loop following the spec text, one ceiling per stage. -/
def specBackLoop (m : ℤ) : ℕ → ℤ → ℤ
  | 0, z => z
  | n + 1, z => specBackLoop m n (specRemStep m z)

/-- Bottleneck length as the spec words it: `rem = T - outputFilterSize + 1`,
then `numLayers` stages each ending in a ceiling; the final rounding up is
the identity because the value is already an integer. -/
def specBottleneck (cfg : ModelConfig) (T : ℤ) : ℤ :=
  specBackLoop cfg.merge_filter_size cfg.num_layers
    (T - cfg.output_filter_size + 1)

/-! Shape-level semantics of the network builder (get_output). -/

/-- Time and channel shape of one rank-3 tensor.  The batch axis is omitted:
`get_output` never changes it. -/
structure TShape where
  time : ℤ
  channels : ℤ
  deriving Repr, DecidableEq

/-- Output length of `tf.nn.conv1d` with stride 1: under padding `"VALID"`,
`out = in - filter + 1` (source comment); under padding `"SAME"` the length
is preserved (spec: shape-preserving convolution semantics). -/
def convLen (padding : String) (L k : ℤ) : ℤ :=
  if padding = "VALID" then L - k + 1 else L

/-- Length after the decimation `current_layer[:, ::2, :]`:
`out = (in - 1)/2 + 1` (source comment on that line). -/
def decimLen (L : ℤ) : ℤ :=
  (L - 1) / 2 + 1

/-- Length after the upsampling step of the decoder.  With context the
bilinear resize targets `current_layer.get_shape()[2] * 2 - 1`
(`align_corners=True`); without context it targets `* 2`.  The learned
branch is modelled from the spec (`Models/InterpolationLayer` is not part
of this source): a width-2 convolution between neighbouring time positions
whose responses are inserted in the middle of the respective inputs, which
doubles the length (minus one under `VALID` padding), agreeing with the
bilinear branch. -/
def upsampleLen (cfg : ModelConfig) (L : ℤ) : ℤ :=
  if cfg.upsampling = "learned" then
    (if cfg.context then 2 * L - 1 else 2 * L)
  else
    (if cfg.context then 2 * L - 1 else 2 * L)

/-- Number of filters of encoder layer `i`: `self.num_initial_filters +
(self.num_initial_filters * i)`. -/
def nFiltEnc (cfg : ModelConfig) (i : ℕ) : ℤ :=
  cfg.num_initial_filters + cfg.num_initial_filters * (i : ℤ)

/-- Number of filters of the bottleneck convolution:
`self.num_initial_filters + (self.num_initial_filters * self.num_layers)`. -/
def nFiltBott (cfg : ModelConfig) : ℤ :=
  cfg.num_initial_filters + cfg.num_initial_filters * (cfg.num_layers : ℤ)

/-- Number of filters of decoder stage `i`: `self.num_initial_filters +
(self.num_initial_filters * (self.num_layers - i - 1))`. -/
def nFiltDec (cfg : ModelConfig) (i : ℕ) : ℤ :=
  cfg.num_initial_filters +
    cfg.num_initial_filters * ((cfg.num_layers : ℤ) - (i : ℤ) - 1)

/-- The down-convolution loop of `get_output`: at layer `i`, a convolution
of width `filter_size` with `nFiltEnc cfg i` filters, the result appended
to `enc_outputs`, then decimation by 2.  Returns the layer fed to the
bottleneck convolution together with `enc_outputs`. -/
def encLoop (cfg : ModelConfig) : ℕ → ℕ → TShape → TShape × List TShape
  | 0, _, cur => (cur, [])
  | n + 1, i, cur =>
    let convd : TShape :=
      ⟨convLen (paddingOf cfg.context) cur.time cfg.filter_size, nFiltEnc cfg i⟩
    let rest := encLoop cfg n (i + 1) ⟨decimLen convd.time, convd.channels⟩
    (rest.1, convd :: rest.2)

/-- Centre-crop-and-concatenate, `Utils.crop_and_concat(a, b,
match_feature_dim=False)`.  Modelled from the spec (`Utils` is not part of
this source): the longer-time tensor is centre-cropped to the shorter time
length, then the two are concatenated along the channel axis. -/
def cropAndConcat (a b : TShape) : TShape :=
  ⟨min a.time b.time, a.channels + b.channels⟩

/-- Failures of `get_output`: the skip-connection `assert`, and the
`NotImplementedError` raised for unrecognized configuration strings. -/
inductive BuildError where
  | assertionFail
  | notImplemented
  deriving Repr, DecidableEq

/-- The up-convolution loop of `get_output`, consuming the encoder trace in
reverse order (`enc_outputs[-i-1]`): upsample, assert the skip length equals
the current length unless context is in use, crop-and-concat, then a merge
convolution with `nFiltDec cfg i` filters. -/
def decLoop (cfg : ModelConfig) :
    List TShape → ℕ → TShape → Except BuildError TShape
  | [], _, cur => .ok cur
  | skip :: rest, i, cur =>
    let up : TShape := ⟨upsampleLen cfg cur.time, cur.channels⟩
    if skip.time = up.time ∨ cfg.context = true then
      let concatd : TShape := cropAndConcat skip up
      decLoop cfg rest (i + 1)
        ⟨convLen (paddingOf cfg.context) concatd.time cfg.merge_filter_size,
         nFiltDec cfg i⟩
    else .error .assertionFail

/-- Which output-projection collaborator `get_output` delegates to, with the
tensor shapes it passes (for `difference`, the original input centre-cropped
to the merged layer, and the merged layer). -/
inductive OutBranch where
  | direct : TShape → OutBranch
  | difference : TShape → TShape → OutBranch
  deriving Repr, DecidableEq

/-- The output step at the end of `get_output`: resolve
`self.output_activation` (`"tanh"` or `"linear"`, otherwise
`NotImplementedError`), then branch on `self.output_type` (`"direct"` or
`"difference"`, otherwise `NotImplementedError`). -/
def outputDispatch (cfg : ModelConfig) (input current : TShape) :
    Except BuildError OutBranch :=
  if cfg.output_activation = "tanh" ∨ cfg.output_activation = "linear" then
    if cfg.output_type = "direct" then
      .ok (.direct current)
    else if cfg.output_type = "difference" then
      .ok (.difference ⟨current.time, input.channels⟩ current)
    else
      .error .notImplemented
  else
    .error .notImplemented

/-- Shape-level `UnetAudioSeparator.get_output`: the encoder loop, the
bottleneck convolution with `nFiltBott` filters, the decoder loop, the final
crop-and-concat with the original input, and the output dispatch. -/
def get_output (cfg : ModelConfig) (input : TShape) :
    Except BuildError OutBranch :=
  let enc := encLoop cfg cfg.num_layers 0 input
  let bott : TShape :=
    ⟨convLen (paddingOf cfg.context) enc.1.time cfg.filter_size,
     nFiltBott cfg⟩
  match decLoop cfg enc.2.reverse 0 bott with
  | .error e => .error e
  | .ok merged => outputDispatch cfg input (cropAndConcat input merged)

/-! Forward length arithmetic for the round-trip property (C3), and helper
loops used to relate it to the loops of `get_padding`. -/

/-- Helper: the input-shape loop of `get_padding` with every iteration using
`filter_size` (the loop before its final, `input_filter_size`, iteration). -/
def inRest (f : ℤ) : ℕ → ℤ → ℤ
  | 0, v => v
  | n + 1, v => inRest f n ((2 * v - 1) + f - 1)

/-- Forward encoder stages that use `filter_size`: valid convolution
`L ↦ L - f + 1` followed by decimation. -/
def specEncRest (f : ℤ) : ℕ → ℤ → ℤ
  | 0, L => L
  | n + 1, L => specEncRest f n (decimLen (L - f + 1))

/-- Forward encoder length arithmetic as the round-trip property states it:
the outermost (first) stage convolves with `input_filter_size`, all later
stages with `filter_size`, each stage ending in a decimation. -/
def specEncLoop (f fin : ℤ) : ℕ → ℤ → ℤ
  | 0, L => L
  | n + 1, L => specEncRest f n (decimLen (L - fin + 1))

/-- The complete forward length arithmetic of the round-trip property:
encoder convolutions and decimations, the extra bottleneck convolution,
`numLayers` decoder stages of upsampling `L ↦ 2L - 1` and merge
convolution (the forward loop of `get_padding` itself), and the output
projection `L ↦ L - outputFilterSize + 1`. -/
def specForwardLen (cfg : ModelConfig) (L : ℤ) : ℤ :=
  let e := specEncLoop cfg.filter_size cfg.input_filter_size cfg.num_layers L
  let b := e - cfg.filter_size + 1
  outLoop cfg.merge_filter_size cfg.num_layers b - cfg.output_filter_size + 1

/-- The forward output-shape loop of `get_padding` over `ℚ`, used to relate
the achievable output length to the exact backward pass. -/
def qOutLoop (m : ℤ) : ℕ → ℚ → ℚ
  | 0, o => o
  | n + 1, o => qOutLoop m n ((2 * o - 1) - (m : ℚ) + 1)

/-! Sample configurations used to instantiate theorems with hypotheses. -/

/-- A context-mode configuration: 1 layer, 4 initial filters, encoder and
input filters of width 3, merge filter 3, output filter 1. -/
def cfgCtx : ModelConfig :=
  ⟨1, 4, 3, 3, 3, 1, "learned", "direct", true, false, "tanh", false⟩

/-- A context-mode configuration with output filter width 3 (1 layer,
encoder filter 5, merge filter 3). -/
def cfgCtxWide : ModelConfig :=
  ⟨1, 4, 5, 3, 5, 3, "learned", "direct", true, false, "tanh", false⟩

/-- A no-context configuration using the bilinear upsampling branch. -/
def cfgPlain : ModelConfig :=
  ⟨1, 4, 3, 3, 3, 3, "bilinear", "direct", false, false, "tanh", false⟩

/-- A configuration with an unrecognized output activation. -/
def cfgBadAct : ModelConfig :=
  ⟨1, 4, 3, 3, 3, 3, "bilinear", "direct", false, false, "sigmoid", false⟩

/-! Bridge lemmas between the exact rational backward pass and integer
arithmetic. -/

/-- The ceiling of half a rational is determined by the ceiling of the
rational itself. -/
theorem ceil_div_two (q : ℚ) : ⌈q / 2⌉ = (⌈q⌉ + 1) / 2 := by
  have hq1 : q ≤ (⌈q⌉ : ℚ) := Int.le_ceil q
  have hq2 : ((⌈q⌉ : ℚ)) < q + 1 := Int.ceil_lt_add_one q
  rw [Int.ceil_eq_iff]
  constructor
  · rw [lt_div_iff₀ (by norm_num : (0:ℚ) < 2)]
    have h1 : (((⌈q⌉ + 1) / 2 : ℤ) : ℚ) * 2 ≤ (⌈q⌉ : ℚ) + 1 := by
      exact_mod_cast (by omega : ((⌈q⌉ + 1) / 2) * 2 ≤ ⌈q⌉ + 1)
    linarith
  · rw [div_le_iff₀ (by norm_num : (0:ℚ) < 2)]
    have h2 : (⌈q⌉ : ℚ) ≤ (((⌈q⌉ + 1) / 2 : ℤ) : ℚ) * 2 := by
      exact_mod_cast (by omega : ⌈q⌉ ≤ ((⌈q⌉ + 1) / 2) * 2)
    linarith

/-- The ceiling of one exact backward step depends only on the ceiling of its
input. -/
theorem ceil_remStep (m : ℤ) (r : ℚ) : ⌈remStep m r⌉ = intRemStep m ⌈r⌉ := by
  have h : remStep m r = (r + (m : ℚ)) / 2 := by
    unfold remStep; ring
  rw [h, ceil_div_two, Int.ceil_add_int, intRemStep]

/-- The ceiling of the exact backward loop equals the integer backward loop
applied to the ceiling of the start value. -/
theorem ceil_backLoop (m : ℤ) (n : ℕ) :
    ∀ r : ℚ, ⌈backLoop m n r⌉ = intBackLoop m n ⌈r⌉ := by
  induction n with
  | zero => intro r; rfl
  | succ k ih =>
    intro r
    show ⌈backLoop m k (remStep m r)⌉ = intBackLoop m k (intRemStep m ⌈r⌉)
    rw [ih, ceil_remStep]

/-- The bottleneck length of `get_padding`, computed by integer arithmetic. -/
theorem bottleneck_eq_int (cfg : ModelConfig) (T : ℤ) :
    bottleneck cfg T =
      intBackLoop cfg.merge_filter_size cfg.num_layers
        (T - cfg.output_filter_size + 1) := by
  unfold bottleneck
  have hcast : (T : ℚ) - (cfg.output_filter_size : ℚ) + 1 =
      ((T - cfg.output_filter_size + 1 : ℤ) : ℚ) := by
    push_cast; ring
  rw [hcast, ceil_backLoop, Int.ceil_intCast]

theorem specRemStep_eq_int (m z : ℤ) : specRemStep m z = intRemStep m z := by
  unfold specRemStep
  have h : (((z + m - 1 : ℤ) : ℚ) + 1) = ((z + m : ℤ) : ℚ) := by
    push_cast; ring
  rw [h, ceil_div_two, Int.ceil_intCast, intRemStep]

theorem specBackLoop_eq_int (m : ℤ) (n : ℕ) :
    ∀ z : ℤ, specBackLoop m n z = intBackLoop m n z := by
  induction n with
  | zero => intro z; rfl
  | succ k ih =>
    intro z
    show specBackLoop m k (specRemStep m z) = intBackLoop m k (intRemStep m z)
    rw [ih, specRemStep_eq_int]


/-! Inversion lemmas: the forward length arithmetic undoes the input-shape
construction of `get_padding`. -/

/-- The step of `inRest` commutes past the loop. -/
theorem inRest_comm (f : ℤ) (n : ℕ) :
    ∀ v : ℤ, inRest f n ((2 * v - 1) + f - 1) = (2 * inRest f n v - 1) + f - 1 := by
  induction n with
  | zero => intro v; rfl
  | succ k ih =>
    intro v
    show inRest f k ((2 * ((2 * v - 1) + f - 1) - 1) + f - 1) = _
    rw [ih ((2 * v - 1) + f - 1)]
    rfl

/-- The input-shape loop of `get_padding` is `inRest` followed by one
final step that uses `input_filter_size`. -/
theorem inLoop_eq_inRest (f fin : ℤ) (n : ℕ) :
    ∀ v : ℤ, inLoop f fin (n + 1) v = (2 * inRest f n v - 1) + fin - 1 := by
  induction n with
  | zero => intro v; rfl
  | succ k ih =>
    intro v
    show inLoop f fin (k + 1 + 1) v = _
    rw [inLoop, ih ((2 * v - 1) + f - 1)]
    rw [show inRest f k ((2 * v - 1) + f - 1) = inRest f (k + 1) v from rfl]

/-- The all-`filter_size` forward encoder stages undo `inRest`. -/
theorem specEncRest_inv (f : ℤ) (n : ℕ) :
    ∀ v : ℤ, specEncRest f n (inRest f n v) = v := by
  induction n with
  | zero => intro v; rfl
  | succ k ih =>
    intro v
    rw [show inRest f (k + 1) v = inRest f k ((2 * v - 1) + f - 1) from rfl,
      inRest_comm]
    show specEncRest f k
      (decimLen (((2 * inRest f k v - 1) + f - 1) - f + 1)) = v
    have hd : decimLen (((2 * inRest f k v - 1) + f - 1) - f + 1)
        = inRest f k v := by
      unfold decimLen; omega
    rw [hd]
    exact ih v

/-- The forward encoder length arithmetic undoes the input-shape loop of
`get_padding`. -/
theorem specEncLoop_inv (f fin : ℤ) (n : ℕ) (v : ℤ) :
    specEncLoop f fin n (inLoop f fin n v) = v := by
  cases n with
  | zero => rfl
  | succ k =>
    rw [inLoop_eq_inRest]
    show specEncRest f k
      (decimLen (((2 * inRest f k v - 1) + fin - 1) - fin + 1)) = v
    have hd : decimLen (((2 * inRest f k v - 1) + fin - 1) - fin + 1)
        = inRest f k v := by
      unfold decimLen; omega
    rw [hd]
    exact specEncRest_inv f k v


/-! Monotonicity of the shape arithmetic. -/

/-- The exact backward loop is monotone in its start value. -/
theorem backLoop_mono (m : ℤ) (n : ℕ) :
    ∀ r r' : ℚ, r ≤ r' → backLoop m n r ≤ backLoop m n r' := by
  induction n with
  | zero => intro r r' h; exact h
  | succ k ih =>
    intro r r' h
    show backLoop m k (remStep m r) ≤ backLoop m k (remStep m r')
    refine ih _ _ ?_
    unfold remStep
    linarith

/-- The bottleneck length is monotone in the desired output length. -/
theorem bottleneck_mono (cfg : ModelConfig) (T T' : ℤ) (h : T ≤ T') :
    bottleneck cfg T ≤ bottleneck cfg T' := by
  unfold bottleneck
  refine Int.ceil_le_ceil (backLoop_mono _ _ _ _ ?_)
  have : (T : ℚ) ≤ (T' : ℚ) := by exact_mod_cast h
  linarith

/-- Monotonicity of `inRest` in its start value. -/
theorem inRest_mono (f : ℤ) (n : ℕ) :
    ∀ v v' : ℤ, v ≤ v' → inRest f n v ≤ inRest f n v' := by
  induction n with
  | zero => intro v v' h; exact h
  | succ k ih =>
    intro v v' h
    show inRest f k ((2 * v - 1) + f - 1) ≤ inRest f k ((2 * v' - 1) + f - 1)
    exact ih _ _ (by omega)

/-- Monotonicity of the input-shape loop of `get_padding` in its start
value. -/
theorem inLoop_mono (f fin : ℤ) (n : ℕ) (v v' : ℤ) (h : v ≤ v') :
    inLoop f fin n v ≤ inLoop f fin n v' := by
  cases n with
  | zero => exact h
  | succ k =>
    rw [inLoop_eq_inRest, inLoop_eq_inRest]
    have := inRest_mono f k v v' h
    omega

/-! The forward output loop as the exact inverse of the backward loop. -/

/-- Casting the integer forward output loop to `ℚ`. -/
theorem outLoop_cast (m : ℤ) (n : ℕ) :
    ∀ o : ℤ, ((outLoop m n o : ℤ) : ℚ) = qOutLoop m n (o : ℚ) := by
  induction n with
  | zero => intro o; rfl
  | succ k ih =>
    intro o
    show ((outLoop m k (outStep m o) : ℤ) : ℚ) = qOutLoop m k _
    rw [ih (outStep m o)]
    unfold outStep
    push_cast
    ring_nf

/-- Peeling the backward loop from the outside. -/
theorem backLoop_succ_outer (m : ℤ) (n : ℕ) :
    ∀ r : ℚ, backLoop m (n + 1) r = remStep m (backLoop m n r) := by
  induction n with
  | zero => intro r; rfl
  | succ k ih =>
    intro r
    show backLoop m (k + 1) (remStep m r) = _
    rw [ih (remStep m r)]
    rfl

/-- The rational forward output loop undoes the backward loop exactly. -/
theorem qOutLoop_backLoop (m : ℤ) (n : ℕ) :
    ∀ r : ℚ, qOutLoop m n (backLoop m n r) = r := by
  induction n with
  | zero => intro r; rfl
  | succ k ih =>
    intro r
    rw [backLoop_succ_outer]
    show qOutLoop m k ((2 * remStep m (backLoop m k r) - 1) - (m : ℚ) + 1) = r
    have hstep : (2 * remStep m (backLoop m k r) - 1) - (m : ℚ) + 1
        = backLoop m k r := by
      unfold remStep
      field_simp
      ring
    rw [hstep]
    exact ih r

/-- The rational forward output loop is monotone. -/
theorem qOutLoop_mono (m : ℤ) (n : ℕ) :
    ∀ o o' : ℚ, o ≤ o' → qOutLoop m n o ≤ qOutLoop m n o' := by
  induction n with
  | zero => intro o o' h; exact h
  | succ k ih =>
    intro o o' h
    show qOutLoop m k _ ≤ qOutLoop m k _
    exact ih _ _ (by linarith)


/-! Skip-connection length bookkeeping of the network builder. -/

/-- Convolution length under no-context (SAME) padding. -/
theorem convLen_nocontext (L k : ℤ) : convLen (paddingOf false) L k = L := by
  rfl

/-- Convolution length under context (VALID) padding. -/
theorem convLen_context (L k : ℤ) :
    convLen (paddingOf true) L k = L - k + 1 := by
  rfl

/-- Both upsampling strategies produce the same length. -/
theorem upsampleLen_eq (cfg : ModelConfig) (L : ℤ) :
    upsampleLen cfg L = if cfg.context then 2 * L - 1 else 2 * L := by
  unfold upsampleLen
  split <;> rfl

/-- One-step unfolding of the encoder loop. -/
theorem encLoop_succ (cfg : ModelConfig) (k i : ℕ) (cur : TShape) :
    encLoop cfg (k + 1) i cur =
      ((encLoop cfg k (i + 1)
          ⟨decimLen (convLen (paddingOf cfg.context) cur.time cfg.filter_size),
           nFiltEnc cfg i⟩).1,
       (⟨convLen (paddingOf cfg.context) cur.time cfg.filter_size,
         nFiltEnc cfg i⟩ : TShape)
         :: (encLoop cfg k (i + 1)
          ⟨decimLen (convLen (paddingOf cfg.context) cur.time cfg.filter_size),
           nFiltEnc cfg i⟩).2) :=
  rfl

/-- Appending to the decoder trace continues a successful decoder run. -/
theorem decLoop_append (cfg : ModelConfig) (l2 : List TShape) :
    ∀ (l1 : List TShape) (i : ℕ) (cur out : TShape),
      decLoop cfg l1 i cur = .ok out →
      decLoop cfg (l1 ++ l2) i cur = decLoop cfg l2 (i + l1.length) out := by
  intro l1
  induction l1 with
  | nil =>
    intro i cur out h
    simp only [decLoop] at h
    injection h with h2
    subst h2
    simp [decLoop]
  | cons s r ih =>
    intro i cur out h
    simp only [decLoop, List.cons_append] at h ⊢
    split at h
    next hcond =>
      rw [if_pos hcond]
      have hgoal := ih (i + 1) _ out h
      rw [← List.append_eq] at hgoal
      rw [hgoal]
      have hlen : i + 1 + r.length = i + (s :: r).length := by
        simp only [List.length_cons]
        omega
      rw [hlen]
    next hcond =>
      exact absurd h (by simp)

/-- With context padding the decoder loop never hits the assertion. -/
theorem decLoop_context_ok (cfg : ModelConfig) (h : cfg.context = true) :
    ∀ (l : List TShape) (i : ℕ) (cur : TShape),
      ∃ out, decLoop cfg l i cur = .ok out := by
  intro l
  induction l with
  | nil => intro i cur; exact ⟨cur, rfl⟩
  | cons s r ih =>
    intro i cur
    simp only [decLoop]
    rw [if_pos (Or.inr h)]
    exact ih (i + 1) _

/-- The output dispatch never produces the assertion failure. -/
theorem outputDispatch_ne_assert (cfg : ModelConfig) (a b : TShape) :
    outputDispatch cfg a b ≠ .error .assertionFail := by
  unfold outputDispatch
  split_ifs <;> simp

/-- If the decoder loop succeeds, `get_output` ends in the output dispatch
applied to the final crop-and-concat with the input. -/
theorem get_output_ok (cfg : ModelConfig) (input merged : TShape)
    (hd : decLoop cfg ((encLoop cfg cfg.num_layers 0 input).2).reverse 0
        ⟨convLen (paddingOf cfg.context)
            (encLoop cfg cfg.num_layers 0 input).1.time cfg.filter_size,
          nFiltBott cfg⟩ = .ok merged) :
    get_output cfg input = outputDispatch cfg input (cropAndConcat input merged) := by
  simp only [get_output]
  rw [hd]

/-- In no-context mode, on an input whose time length is `2 ^ n * w`, the
encoder reaches the bottleneck with time length `w` and the decoder loop
runs through all skip connections successfully, returning the input length. -/
theorem encdec_nocontext (cfg : ModelConfig) (h : cfg.context = false) (n : ℕ) :
    ∀ (i j : ℕ) (w c d : ℤ),
      (encLoop cfg n i ⟨2 ^ n * w, c⟩).1.time = w ∧
      ∃ ch : ℤ,
        decLoop cfg ((encLoop cfg n i ⟨2 ^ n * w, c⟩).2).reverse j ⟨w, d⟩
          = .ok ⟨2 ^ n * w, ch⟩ := by
  induction n with
  | zero =>
    intro i j w c d
    refine ⟨by norm_num [encLoop], d, ?_⟩
    simp [encLoop, decLoop]
  | succ k ih =>
    intro i j w c d
    have hpow : (2 : ℤ) ^ (k + 1) * w = 2 * (2 ^ k * w) := by ring
    have hdecim : decimLen ((2 : ℤ) ^ (k + 1) * w) = 2 ^ k * w := by
      unfold decimLen
      rw [hpow]
      omega
    have henc : encLoop cfg (k + 1) i ⟨2 ^ (k + 1) * w, c⟩
        = ((encLoop cfg k (i + 1)
              ⟨2 ^ k * w, nFiltEnc cfg i⟩).1,
           (⟨2 ^ (k + 1) * w, nFiltEnc cfg i⟩ : TShape)
             :: (encLoop cfg k (i + 1) ⟨2 ^ k * w, nFiltEnc cfg i⟩).2) := by
      rw [encLoop_succ]
      rw [h, convLen_nocontext, hdecim]
    rw [henc]
    obtain ⟨ih1, ch, ih2⟩ := ih (i + 1) j w (nFiltEnc cfg i) d
    refine ⟨ih1, ?_⟩
    rw [List.reverse_cons]
    rw [decLoop_append cfg _ _ j ⟨w, d⟩ ⟨2 ^ k * w, ch⟩ ih2]
    simp only [decLoop]
    rw [upsampleLen_eq, h]
    simp only [if_false, Bool.false_eq_true]
    rw [if_pos (Or.inl (by ring))]
    refine ⟨nFiltDec cfg (j + ((encLoop cfg k (i + 1)
      ⟨2 ^ k * w, nFiltEnc cfg i⟩).2).reverse.length), ?_⟩
    simp only [cropAndConcat]
    rw [convLen_nocontext, hpow]
    simp


/-! The claims. -/

/-- C1: in context mode, for every configuration with positive `numLayers`
and filter sizes and every desired output time length `T`, the bottleneck
length derived by `get_padding` (exact backward arithmetic with one final
ceiling) equals the backward algorithm of the spec, `rem = T -
outputFilterSize + 1` followed per decoder stage by `rem = rem +
mergeFilterSize - 1` and `rem = ceil((rem + 1)/2)` with the ceiling applied
at every stage. -/
theorem C1_bottleneck_backward (cfg : ModelConfig) (T : ℤ)
    (_hctx : cfg.context = true) (_hn : 0 < cfg.num_layers)
    (_hf : 0 < cfg.filter_size) (_hm : 0 < cfg.merge_filter_size)
    (_hi : 0 < cfg.input_filter_size) (_ho : 0 < cfg.output_filter_size) :
    bottleneck cfg T = specBottleneck cfg T := by
  rw [bottleneck_eq_int]
  unfold specBottleneck
  rw [specBackLoop_eq_int]

/-- Witness for C1 at a concrete context-mode configuration. -/
theorem C1_witness :
    cfgCtx.context = true ∧ 0 < cfgCtx.num_layers ∧ 0 < cfgCtx.filter_size ∧
      0 < cfgCtx.merge_filter_size ∧ 0 < cfgCtx.input_filter_size ∧
      0 < cfgCtx.output_filter_size ∧
      bottleneck cfgCtx 16 = specBottleneck cfgCtx 16 :=
  ⟨rfl, by decide, by decide, by decide, by decide, by decide,
    C1_bottleneck_backward cfgCtx 16 rfl (by decide) (by decide) (by decide)
      (by decide) (by decide)⟩

/-- C2: in context mode, a derived bottleneck length of exactly 2 makes
`get_padding` return a fully defined shape pair, while a bottleneck length
below 2 makes it fail with no result at all; the decision is taken by pure
shape arithmetic, before any tensor exists. -/
theorem C2_bottleneck_boundary (cfg : ModelConfig) (s : Shape)
    (hctx : cfg.context = true) :
    (bottleneck cfg s.time = 2 → (get_padding cfg s).isSome = true) ∧
    (bottleneck cfg s.time < 2 → get_padding cfg s = none) := by
  simp only [get_padding]
  rw [hctx]
  rw [if_pos rfl]
  constructor
  · intro h2
    rw [if_pos (by omega : 2 ≤ bottleneck cfg s.time)]
    rfl
  · intro hlt
    rw [if_neg (by omega)]

/-- Witness for C2: `T = 3` gives bottleneck exactly 2 and succeeds,
`T = 1` forces bottleneck 1 and fails. -/
theorem C2_witness :
    (get_padding cfgCtxWide ⟨1, 3, 2⟩).isSome = true ∧
    get_padding cfgCtxWide ⟨1, 1, 2⟩ = none :=
  ⟨(C2_bottleneck_boundary cfgCtxWide ⟨1, 3, 2⟩ rfl).1
      (by rw [bottleneck_eq_int]; decide),
   (C2_bottleneck_boundary cfgCtxWide ⟨1, 1, 2⟩ rfl).2
      (by rw [bottleneck_eq_int]; decide)⟩

/-- C3: in context mode, whenever `get_padding` succeeds, running the
forward length arithmetic on the returned input time length (encoder convs
with `inputFilterSize` outermost and `filterSize` elsewhere, decimations,
the extra bottleneck conv, the decoder stages, the output projection)
reproduces the returned output time length exactly. -/
theorem C3_roundtrip (cfg : ModelConfig) (s inSh outSh : Shape)
    (hctx : cfg.context = true)
    (h : get_padding cfg s = some (inSh, outSh)) :
    specForwardLen cfg inSh.time = outSh.time := by
  simp only [get_padding] at h
  rw [hctx] at h
  rw [if_pos rfl] at h
  split at h
  next hx =>
    injection h with h
    injection h with h1 h2
    subst h1
    subst h2
    show specForwardLen cfg
        (inLoop cfg.filter_size cfg.input_filter_size cfg.num_layers
          (bottleneck cfg s.time + cfg.filter_size - 1))
      = outLoop cfg.merge_filter_size cfg.num_layers (bottleneck cfg s.time)
          - cfg.output_filter_size + 1
    simp only [specForwardLen]
    rw [specEncLoop_inv]
    have harg : bottleneck cfg s.time + cfg.filter_size - 1
        - cfg.filter_size + 1 = bottleneck cfg s.time := by ring
    rw [harg]
  next hx => cases h

/-- Witness for C3 at a concrete configuration and output length 1. -/
theorem C3_witness :
    specForwardLen cfgCtx (⟨1, 9, 2⟩ : Shape).time = (⟨1, 1, 2⟩ : Shape).time :=
  C3_roundtrip cfgCtx ⟨1, 1, 2⟩ ⟨1, 9, 2⟩ ⟨1, 1, 2⟩ rfl
    (by simp only [get_padding, bottleneck_eq_int]; decide)

/-- C4: in no-context mode `get_padding` returns input and output shapes
both equal to the requested batch and time with the channel entry
overridden to the configured channel count, for any requested channels. -/
theorem C4_nocontext_identity (cfg : ModelConfig) (s : Shape)
    (h : cfg.context = false) :
    get_padding cfg s =
      some (⟨s.batch, s.time, num_channels cfg⟩,
            ⟨s.batch, s.time, num_channels cfg⟩) := by
  simp only [get_padding]
  rw [h]
  simp

/-- Witness for C4 with requested channel entry 5. -/
theorem C4_witness :
    get_padding cfgPlain ⟨3, 7, 5⟩ = some (⟨3, 7, 2⟩, ⟨3, 7, 2⟩) :=
  C4_nocontext_identity cfgPlain ⟨3, 7, 5⟩ rfl

/-- C5: the encoder convolution at layer `i` produces
`numInitialFilters * (i+1)` channels, the bottleneck convolution
`numInitialFilters * (numLayers+1)` channels, and the decoder convolution
at stage `i` `numInitialFilters * (numLayers - i)` channels. -/
theorem C5_filter_counts (cfg : ModelConfig) (i : ℕ) :
    nFiltEnc cfg i = cfg.num_initial_filters * ((i : ℤ) + 1) ∧
    nFiltBott cfg = cfg.num_initial_filters * ((cfg.num_layers : ℤ) + 1) ∧
    nFiltDec cfg i
      = cfg.num_initial_filters * ((cfg.num_layers : ℤ) - (i : ℤ)) := by
  refine ⟨?_, ?_, ?_⟩ <;> simp only [nFiltEnc, nFiltBott, nFiltDec] <;> ring

/-- C6 counterexample: in no-context mode with one layer, an input of time
length 5 makes the skip-connection assertion fail (the encoder trace entry
has length 5 but the upsampled layer has length 6), so the claim that the
assertion never fails for every no-context build is false. -/
theorem C6_counterexample :
    cfgPlain.context = false ∧
    get_output cfgPlain ⟨5, 2⟩ = .error .assertionFail :=
  ⟨rfl, by rfl⟩

/-- C6 (amended): in no-context mode the skip-connection assertion never
fails provided the input time length is divisible by `2 ^ numLayers`; in
context mode the assertion is vacuously satisfied for every input. -/
theorem C6_skip_assertion (cfg : ModelConfig) (input : TShape) :
    (cfg.context = false → ((2 : ℤ) ^ cfg.num_layers ∣ input.time) →
      get_output cfg input ≠ .error .assertionFail) ∧
    (cfg.context = true → get_output cfg input ≠ .error .assertionFail) := by
  constructor
  · intro h hdvd
    obtain ⟨w, hw⟩ := hdvd
    have hinput : input = ⟨2 ^ cfg.num_layers * w, input.channels⟩ := by
      cases input
      simp only [TShape.mk.injEq]
      exact ⟨hw, trivial⟩
    rw [hinput]
    obtain ⟨henc1, ch, hdec⟩ :=
      encdec_nocontext cfg h cfg.num_layers 0 0 w input.channels (nFiltBott cfg)
    have hbott : convLen (paddingOf cfg.context)
        (encLoop cfg cfg.num_layers 0
          ⟨2 ^ cfg.num_layers * w, input.channels⟩).1.time cfg.filter_size
        = w := by
      rw [h, convLen_nocontext, henc1]
    rw [get_output_ok cfg _ ⟨2 ^ cfg.num_layers * w, ch⟩
      (by rw [hbott]; exact hdec)]
    exact outputDispatch_ne_assert _ _ _
  · intro h
    obtain ⟨out, hout⟩ := decLoop_context_ok cfg h
      ((encLoop cfg cfg.num_layers 0 input).2).reverse 0
      ⟨convLen (paddingOf cfg.context)
          (encLoop cfg cfg.num_layers 0 input).1.time cfg.filter_size,
        nFiltBott cfg⟩
    rw [get_output_ok cfg input out hout]
    exact outputDispatch_ne_assert _ _ _

/-- Witness for the amended C6: an even input length in no-context mode and
any input in context mode build without tripping the assertion. -/
theorem C6_witness :
    get_output cfgPlain ⟨4, 2⟩ ≠ .error .assertionFail ∧
    get_output cfgCtx ⟨4, 2⟩ ≠ .error .assertionFail :=
  ⟨(C6_skip_assertion cfgPlain ⟨4, 2⟩).1 rfl ⟨2, by decide⟩,
   (C6_skip_assertion cfgCtx ⟨4, 2⟩).2 rfl⟩

/-- C7: the output dispatch raises the unsupported-configuration error when
`output_activation` is neither tanh nor linear or `output_type` is neither
direct nor difference, without delegating to either output-projection
collaborator, and with recognized values exactly the matching branch is
taken. -/
theorem C7_output_dispatch (cfg : ModelConfig) (a b : TShape) :
    ((cfg.output_activation ≠ "tanh" ∧ cfg.output_activation ≠ "linear") ∨
        (cfg.output_type ≠ "direct" ∧ cfg.output_type ≠ "difference") →
      outputDispatch cfg a b = .error .notImplemented) ∧
    ((cfg.output_activation = "tanh" ∨ cfg.output_activation = "linear") →
      (cfg.output_type = "direct" →
          outputDispatch cfg a b = .ok (.direct b)) ∧
      (cfg.output_type = "difference" →
          outputDispatch cfg a b
            = .ok (.difference ⟨b.time, a.channels⟩ b))) := by
  unfold outputDispatch
  constructor
  · rintro (⟨h1, h2⟩ | ⟨h1, h2⟩)
    · have hno : ¬(cfg.output_activation = "tanh"
          ∨ cfg.output_activation = "linear") := by
        rintro (hh | hh)
        · exact h1 hh
        · exact h2 hh
      rw [if_neg hno]
    · by_cases ha : cfg.output_activation = "tanh"
        ∨ cfg.output_activation = "linear"
      · rw [if_pos ha, if_neg h1, if_neg h2]
      · rw [if_neg ha]
  · intro ha
    constructor
    · intro hd
      rw [if_pos ha, if_pos hd]
    · intro hd
      rw [if_pos ha]
      by_cases hdir : cfg.output_type = "direct"
      · rw [hdir] at hd
        exact absurd hd (by decide)
      · rw [if_neg hdir, if_pos hd]

/-- Witness for C7: an unrecognized activation errors out, recognized
values take the direct branch. -/
theorem C7_witness :
    outputDispatch cfgBadAct ⟨4, 2⟩ ⟨4, 6⟩ = .error .notImplemented ∧
    outputDispatch cfgPlain ⟨4, 2⟩ ⟨4, 6⟩ = .ok (.direct ⟨4, 6⟩) :=
  ⟨(C7_output_dispatch cfgBadAct ⟨4, 2⟩ ⟨4, 6⟩).1
      (Or.inl ⟨by decide, by decide⟩),
   ((C7_output_dispatch cfgPlain ⟨4, 2⟩ ⟨4, 6⟩).2 (Or.inl rfl)).1 rfl⟩

/-- C8: in context mode, if `get_padding` succeeds at both `T` and `T + 1`,
the input time length computed for `T + 1` is at least the one computed for
`T`. -/
theorem C8_monotone (cfg : ModelConfig) (b t c : ℤ) (i1 o1 i2 o2 : Shape)
    (hctx : cfg.context = true)
    (h1 : get_padding cfg ⟨b, t, c⟩ = some (i1, o1))
    (h2 : get_padding cfg ⟨b, t + 1, c⟩ = some (i2, o2)) :
    i1.time ≤ i2.time := by
  simp only [get_padding] at h1 h2
  rw [hctx] at h1 h2
  rw [if_pos rfl] at h1
  rw [if_pos rfl] at h2
  split at h1
  next hx1 =>
    split at h2
    next hx2 =>
      injection h1 with h1
      injection h1 with h1a h1b
      injection h2 with h2
      injection h2 with h2a h2b
      subst h1a
      subst h2a
      show inLoop cfg.filter_size cfg.input_filter_size cfg.num_layers
            (bottleneck cfg t + cfg.filter_size - 1)
          ≤ inLoop cfg.filter_size cfg.input_filter_size cfg.num_layers
            (bottleneck cfg (t + 1) + cfg.filter_size - 1)
      apply inLoop_mono
      have := bottleneck_mono cfg t (t + 1) (by omega)
      omega
    next => cases h2
  next => cases h1

/-- Witness for C8 at output lengths 1 and 2. -/
theorem C8_witness : (⟨1, 9, 2⟩ : Shape).time ≤ (⟨1, 11, 2⟩ : Shape).time :=
  C8_monotone cfgCtx 1 1 2 ⟨1, 9, 2⟩ ⟨1, 1, 2⟩ ⟨1, 11, 2⟩ ⟨1, 3, 2⟩ rfl
    (by simp only [get_padding, bottleneck_eq_int]; decide)
    (by simp only [get_padding, bottleneck_eq_int]; decide)

/-- C9 counterexample: with one layer, merge filter 3 and output filter 3,
requesting output length 9 succeeds but returns an achievable output length
of only 5, so the returned output time length is not always at least the
requested `T`. -/
theorem C9_counterexample :
    get_padding cfgCtxWide ⟨1, 9, 2⟩ = some (⟨1, 21, 2⟩, ⟨1, 5, 2⟩) ∧
    ¬((⟨1, 9, 2⟩ : Shape).time ≤ (⟨1, 5, 2⟩ : Shape).time) :=
  ⟨by simp only [get_padding, bottleneck_eq_int]; decide, by decide⟩

/-- C9 (amended): in context mode, whenever `get_padding` succeeds the
achievable output time length is at least
`T - 2 * (outputFilterSize - 1)`; in particular it is at least `T` when
`outputFilterSize = 1` (the backward pass applies the output projection in
the forward direction, so each unit of output filter width above one costs
two samples, and the final ceiling can only enlarge the output). -/
theorem C9_output_lower_bound (cfg : ModelConfig) (s inSh outSh : Shape)
    (hctx : cfg.context = true)
    (h : get_padding cfg s = some (inSh, outSh)) :
    s.time - 2 * (cfg.output_filter_size - 1) ≤ outSh.time := by
  simp only [get_padding] at h
  rw [hctx] at h
  rw [if_pos rfl] at h
  split at h
  next hx =>
    injection h with h
    injection h with h1 h2
    subst h2
    show s.time - 2 * (cfg.output_filter_size - 1)
        ≤ outLoop cfg.merge_filter_size cfg.num_layers
            (bottleneck cfg s.time) - cfg.output_filter_size + 1
    have hx_ge : backLoop cfg.merge_filter_size cfg.num_layers
          ((s.time : ℚ) - (cfg.output_filter_size : ℚ) + 1)
        ≤ ((bottleneck cfg s.time : ℤ) : ℚ) := by
      unfold bottleneck
      exact Int.le_ceil _
    have hmono := qOutLoop_mono cfg.merge_filter_size cfg.num_layers _ _ hx_ge
    have hinv := qOutLoop_backLoop cfg.merge_filter_size cfg.num_layers
      ((s.time : ℚ) - (cfg.output_filter_size : ℚ) + 1)
    have hcast := outLoop_cast cfg.merge_filter_size cfg.num_layers
      (bottleneck cfg s.time)
    have hq : (s.time : ℚ) - (cfg.output_filter_size : ℚ) + 1
        ≤ ((outLoop cfg.merge_filter_size cfg.num_layers
            (bottleneck cfg s.time) : ℤ) : ℚ) := by
      rw [hcast]
      calc (s.time : ℚ) - (cfg.output_filter_size : ℚ) + 1
          = qOutLoop cfg.merge_filter_size cfg.num_layers
              (backLoop cfg.merge_filter_size cfg.num_layers
                ((s.time : ℚ) - (cfg.output_filter_size : ℚ) + 1)) := hinv.symm
        _ ≤ qOutLoop cfg.merge_filter_size cfg.num_layers
              ((bottleneck cfg s.time : ℤ) : ℚ) := hmono
    have hz : s.time - cfg.output_filter_size + 1
        ≤ outLoop cfg.merge_filter_size cfg.num_layers
            (bottleneck cfg s.time) := by
      exact_mod_cast hq
    omega
  next => cases h

/-- Witness for the amended C9: at the counterexample configuration the
bound `9 - 2*(3 - 1) ≤ 5` is attained with equality. -/
theorem C9_witness :
    (⟨1, 9, 2⟩ : Shape).time - 2 * (cfgCtxWide.output_filter_size - 1)
      ≤ (⟨1, 5, 2⟩ : Shape).time :=
  C9_output_lower_bound cfgCtxWide ⟨1, 9, 2⟩ ⟨1, 21, 2⟩ ⟨1, 5, 2⟩ rfl
    (by simp only [get_padding, bottleneck_eq_int]; decide)

/-- C10: `get_padding` reads only the batch and time entries of the
requested shape — two requests agreeing on batch and time give identical
results in both modes — and every returned shape carries the configured
channel count, 1 under mono downmix and 2 otherwise. -/
theorem C10_channel_independence (cfg : ModelConfig) (b t c c2 : ℤ) :
    get_padding cfg ⟨b, t, c⟩ = get_padding cfg ⟨b, t, c2⟩ ∧
    num_channels cfg = (if cfg.mono_downmix then 1 else 2) ∧
    ∀ r : Shape × Shape, get_padding cfg ⟨b, t, c⟩ = some r →
      r.1.channels = num_channels cfg ∧ r.2.channels = num_channels cfg := by
  refine ⟨rfl, rfl, ?_⟩
  intro r hr
  simp only [get_padding] at hr
  by_cases hctx : cfg.context = true
  · rw [hctx] at hr
    rw [if_pos rfl] at hr
    split at hr
    next =>
      injection hr with hr
      subst hr
      exact ⟨rfl, rfl⟩
    next => cases hr
  · rw [Bool.not_eq_true] at hctx
    rw [hctx] at hr
    rw [if_neg (by decide)] at hr
    injection hr with hr
    subst hr
    exact ⟨rfl, rfl⟩

/-- Witness for C10 at a successful context-mode request. -/
theorem C10_witness :
    (⟨1, 21, 2⟩ : Shape).channels = num_channels cfgCtxWide ∧
    (⟨1, 5, 2⟩ : Shape).channels = num_channels cfgCtxWide :=
  (C10_channel_independence cfgCtxWide 1 9 2 7).2.2 (⟨1, 21, 2⟩, ⟨1, 5, 2⟩)
    (by simp only [get_padding, bottleneck_eq_int]; decide)

end UnetSep
